import Mathlib

/-!
Shallow embedding of the StellarStream token-vesting contract
(`src/contracts/src/lib.rs`, `src/contracts/src/types.rs`).

Addresses are modelled as opaque natural-number identifiers.  Token
transfers are modelled as an emitted list of `Transfer` records: the host
environment executes every public entry point atomically, so a panic
(`Except.error` here) commits no state change and no transfer.  `i128`
amounts are modelled as `Int` and `u64` timestamps/ids as `Nat`; the claims
under study stay far from the 128/64-bit boundaries, where the host traps
and aborts the whole call.
-/

namespace StellarStream

/-- Opaque on-chain address identifier. -/
abbrev Address := Nat

/-- The contract's own address, holding custody of streamed funds. -/
def contractAddress : Address := 0

/-- Current schema of a stream record (`types.rs`, `Stream`). -/
structure Stream where
  sender : Address
  receiver : Address
  token : Address
  amount : Int
  start_time : Nat
  cliff_time : Nat
  end_time : Nat
  withdrawn_amount : Int
  deriving DecidableEq

/-- Legacy (v1) schema of a stream record, without `cliff_time`
(`types.rs`, `LegacyStream`). -/
structure LegacyStream where
  sender : Address
  receiver : Address
  token : Address
  amount : Int
  start_time : Nat
  end_time : Nat
  withdrawn_amount : Int
  deriving DecidableEq

/-- Batch-creation request (`types.rs`, `StreamRequest`). -/
structure StreamRequest where
  receiver : Address
  amount : Int
  start_time : Nat
  cliff_time : Nat
  end_time : Nat
  deriving DecidableEq

/-- A stored record under `DataKey::Stream(id)` is encoded either in the
current or in the legacy schema. -/
inductive StoredStream
  | current (s : Stream)
  | legacy (s : LegacyStream)
  deriving DecidableEq

/-- Abort causes, mirroring the `panic!` sites of `lib.rs`. -/
inductive CErr
  | adminNotSet
  | unauthorized
  | alreadyMigrated
  | nonMonotonicMigration
  | undefinedMigrationStep
  | feeOutOfBounds
  | paused
  | invalidRange
  | invalidCliff
  | invalidAmount
  | treasuryNotSet
  | streamNotFound
  | nothingWithdrawable
  | alreadyCompleted
  | notLegacy
  deriving DecidableEq

/-- One external token transfer `source → dest` of `amount`. -/
structure Transfer where
  source : Address
  dest : Address
  amount : Int
  deriving DecidableEq

/-- The contract's persistent storage (`DataKey` entries of `types.rs`).
`none` models an unset key. -/
structure ContractState where
  admin : Option Address
  feeBps : Option Nat
  treasury : Option Address
  isPaused : Option Bool
  streamId : Option Nat
  contractVersion : Option Nat
  migrationExecuted : List Nat
  streams : List (Nat × StoredStream)
  deriving DecidableEq

/-- Read `DataKey::Stream(id)` from persistent storage. -/
def getStream (st : ContractState) (id : Nat) : Option StoredStream :=
  st.streams.lookup id

/-- Write `DataKey::Stream(id)`. -/
def setStream (st : ContractState) (id : Nat) (s : StoredStream) : ContractState :=
  { st with streams := (id, s) :: st.streams.filter (fun p => p.1 != id) }

/-- Remove `DataKey::Stream(id)`. -/
def removeStream (st : ContractState) (id : Nat) : ContractState :=
  { st with streams := st.streams.filter (fun p => p.1 != id) }

/-- Modelled from the spec: `math::calculate_unlocked`.  The file backing
`pub mod math` is absent from the repository snapshot — only its callers in
`lib.rs` are present — so this definition follows spec §4.1 verbatim:
`now < cliff` gives 0; `now ≥ end` gives the full amount; otherwise the
linear interpolation `amount * (now - start) / (end - start)` in integer
arithmetic (all quantities non-negative in that branch, so every integer
division convention coincides). -/
def calculate_unlocked (amount : Int) (start_time cliff_time end_time now : Nat) : Int :=
  if now < cliff_time then 0
  else if end_time ≤ now then amount
  else amount * ((now : Int) - (start_time : Int)) / ((end_time : Int) - (start_time : Int))

/-- `create_stream` (`lib.rs` 241-310).  Returns the post state, the emitted
transfers and the new stream id. -/
def create_stream (st : ContractState) (sender receiver token : Address)
    (amount : Int) (start_time cliff_time end_time : Nat) :
    Except CErr (ContractState × List Transfer × Nat) :=
  if st.isPaused.getD false then .error .paused
  else if end_time ≤ start_time then .error .invalidRange
  else if cliff_time < start_time ∨ end_time ≤ cliff_time then .error .invalidCliff
  else if amount ≤ 0 then .error .invalidAmount
  else
    let fee_bps : Nat := st.feeBps.getD 0
    let fee_amount : Int := amount * (fee_bps : Int) / 10000
    let principal : Int := amount - fee_amount
    let custodyTransfer : Transfer :=
      { source := sender, dest := contractAddress, amount := principal }
    let feeTransfers : Except CErr (List Transfer) :=
      if 0 < fee_amount then
        match st.treasury with
        | none => .error .treasuryNotSet
        | some tr => .ok [{ source := sender, dest := tr, amount := fee_amount }]
      else .ok []
    match feeTransfers with
    | .error e => .error e
    | .ok fts =>
      let stream_id := st.streamId.getD 0 + 1
      let st1 := { st with streamId := some stream_id }
      let stream : Stream :=
        { sender, receiver, token, amount := principal,
          start_time, cliff_time, end_time, withdrawn_amount := 0 }
      .ok (setStream st1 stream_id (.current stream),
           custodyTransfer :: fts, stream_id)

/-- Validation pass of `create_batch_streams` (`lib.rs` 321-330): checks
every request before any transfer and totals the amounts. -/
def validateBatch : List StreamRequest → Except CErr Int
  | [] => .ok 0
  | r :: rest =>
    if r.end_time ≤ r.start_time then .error .invalidRange
    else if r.amount ≤ 0 then .error .invalidAmount
    else match validateBatch rest with
      | .error e => .error e
      | .ok t => .ok (r.amount + t)

/-- The stream persisted for one batch request (`lib.rs` 345-354): the full
request amount, no fee deducted. -/
def mkBatchStream (sender token : Address) (r : StreamRequest) : Stream :=
  { sender, receiver := r.receiver, token, amount := r.amount,
    start_time := r.start_time, cliff_time := r.cliff_time,
    end_time := r.end_time, withdrawn_amount := 0 }

/-- Creation loop of `create_batch_streams` (`lib.rs` 342-364): consumes
sequential ids in request order.  Returns the post state, the ids issued and
the final counter value. -/
def insertBatch (sender token : Address) :
    ContractState → Nat → List StreamRequest → ContractState × List Nat × Nat
  | st, sid, [] => (st, [], sid)
  | st, sid, r :: rest =>
    let sid1 := sid + 1
    let st1 := setStream st sid1 (.current (mkBatchStream sender token r))
    let res := insertBatch sender token st1 sid1 rest
    (res.1, sid1 :: res.2.1, res.2.2)

/-- `create_batch_streams` (`lib.rs` 313-369): validate all requests, one
aggregate custody transfer of the total, then persist one stream per
request.  No pause check and no fee in this path. -/
def create_batch_streams (st : ContractState) (sender token : Address)
    (requests : List StreamRequest) :
    Except CErr (ContractState × List Transfer × List Nat) :=
  match validateBatch requests with
  | .error e => .error e
  | .ok total =>
    let t : Transfer := { source := sender, dest := contractAddress, amount := total }
    let start_id := st.streamId.getD 0
    let res := insertBatch sender token st start_id requests
    .ok ({ res.1 with streamId := some res.2.2 }, [t], res.2.1)

/-- `withdraw` (`lib.rs` 371-420).  A record that does not decode in the
current schema surfaces as the missing-stream panic, matching the decode
conventions the source itself relies on in `migrate_v1_to_v2`. -/
def withdraw (st : ContractState) (stream_id : Nat) (receiver : Address)
    (now : Nat) : Except CErr (ContractState × List Transfer × Int) :=
  if st.isPaused.getD false then .error .paused
  else match getStream st stream_id with
  | none => .error .streamNotFound
  | some (.legacy _) => .error .streamNotFound
  | some (.current stream) =>
    if receiver ≠ stream.receiver then .error .unauthorized
    else
      let total_unlocked := calculate_unlocked stream.amount stream.start_time
        stream.cliff_time stream.end_time now
      let withdrawable_amount := total_unlocked - stream.withdrawn_amount
      if withdrawable_amount ≤ 0 then .error .nothingWithdrawable
      else
        let stream1 :=
          { stream with withdrawn_amount := stream.withdrawn_amount + withdrawable_amount }
        .ok (setStream st stream_id (.current stream1),
             [{ source := contractAddress, dest := receiver, amount := withdrawable_amount }],
             withdrawable_amount)

/-- `cancel_stream` (`lib.rs` 422-469): settle the unlocked-but-unwithdrawn
part to the receiver, refund `amount - unlocked` to the sender, skip
zero-or-negative transfers, remove the record. -/
def cancel_stream (st : ContractState) (stream_id : Nat) (now : Nat) :
    Except CErr (ContractState × List Transfer) :=
  if st.isPaused.getD false then .error .paused
  else match getStream st stream_id with
  | none => .error .streamNotFound
  | some (.legacy _) => .error .streamNotFound
  | some (.current stream) =>
    if stream.end_time ≤ now then .error .alreadyCompleted
    else
      let total_unlocked := calculate_unlocked stream.amount stream.start_time
        stream.cliff_time stream.end_time now
      let withdrawable_to_receiver := total_unlocked - stream.withdrawn_amount
      let refund_to_sender := stream.amount - total_unlocked
      let ts1 : List Transfer :=
        if 0 < withdrawable_to_receiver then
          [{ source := contractAddress, dest := stream.receiver,
             amount := withdrawable_to_receiver }]
        else []
      let ts2 : List Transfer :=
        if 0 < refund_to_sender then
          [{ source := contractAddress, dest := stream.sender,
             amount := refund_to_sender }]
        else []
      .ok (removeStream st stream_id, ts1 ++ ts2)

/-- `transfer_receiver` (`lib.rs` 471-487): in-place reassignment of the
receiver, no pause check, no balance movement. -/
def transfer_receiver (st : ContractState) (stream_id : Nat)
    (new_receiver : Address) : Except CErr ContractState :=
  match getStream st stream_id with
  | some (.current s) =>
    .ok (setStream st stream_id (.current { s with receiver := new_receiver }))
  | _ => .error .streamNotFound

/-- `get_version` (`lib.rs` 24-29): defaults to 1 when unset. -/
def get_version (st : ContractState) : Nat :=
  st.contractVersion.getD 1

/-- `is_migration_executed` (`lib.rs` 39-44). -/
def is_migration_executed (st : ContractState) (v : Nat) : Bool :=
  st.migrationExecuted.contains v

/-- One iteration of the `migrate_v1_to_v2` loop (`lib.rs` 112-134): a
missing record is skipped, a current-schema record is skipped, and a record
that does not decode as current takes no corrective action either. -/
def migrateV1V2Step (st : ContractState) (id : Nat) : ContractState :=
  match getStream st id with
  | none => st
  | some (.current _) => st
  | some (.legacy _) => st

/-- `migrate_v1_to_v2` (`lib.rs` 104-135): iterates ids `1..=stream_count`.
-/
def migrate_v1_to_v2 (st : ContractState) : ContractState :=
  (List.range (st.streamId.getD 0)).foldl (fun s i => migrateV1V2Step s (i + 1)) st

/-- The migration-step dispatch loop of `migrate` (`lib.rs` 84-89) over the
listed versions: only version 2 has a defined step. -/
def runMigrations (st : ContractState) : List Nat → Except CErr ContractState
  | [] => .ok st
  | v :: rest =>
    if v = 2 then runMigrations (migrate_v1_to_v2 st) rest
    else .error .undefinedMigrationStep

/-- The ascending version range `current+1 .. target` walked by `migrate`. -/
def versionRange (current target : Nat) : List Nat :=
  (List.range (target - current)).map (fun i => current + 1 + i)

/-- `migrate` (`lib.rs` 55-100).  Note the source checks the
already-executed flag before the forward-motion check. -/
def migrate (st : ContractState) (admin : Address) (target_version : Nat) :
    Except CErr ContractState :=
  match st.admin with
  | none => .error .adminNotSet
  | some stored_admin =>
    if admin ≠ stored_admin then .error .unauthorized
    else if is_migration_executed st target_version then .error .alreadyMigrated
    else
      let current_version := get_version st
      if target_version ≤ current_version then .error .nonMonotonicMigration
      else
        match runMigrations st (versionRange current_version target_version) with
        | .error e => .error e
        | .ok st1 =>
          .ok { st1 with
                migrationExecuted := target_version :: st1.migrationExecuted,
                contractVersion := some target_version }

/-- `migrate_single_stream` (`lib.rs` 138-181): converts one legacy record,
setting `cliff_time := start_time`; fails if absent or not legacy-shaped. -/
def migrate_single_stream (st : ContractState) (admin : Address)
    (stream_id : Nat) : Except CErr ContractState :=
  match st.admin with
  | none => .error .adminNotSet
  | some stored_admin =>
    if admin ≠ stored_admin then .error .unauthorized
    else match getStream st stream_id with
    | some (.legacy ls) =>
      let migrated : Stream :=
        { sender := ls.sender, receiver := ls.receiver, token := ls.token,
          amount := ls.amount, start_time := ls.start_time,
          cliff_time := ls.start_time, end_time := ls.end_time,
          withdrawn_amount := ls.withdrawn_amount }
      .ok (setStream st stream_id (.current migrated))
    | _ => .error .notLegacy

/-- Total value moved by a transfer list. -/
def transferTotal (ts : List Transfer) : Int :=
  (ts.map Transfer.amount).sum

/-- The payable amount computed inside `withdraw`:
unlocked-so-far minus already-withdrawn. -/
def payableOf (s : Stream) (now : Nat) : Int :=
  calculate_unlocked s.amount s.start_time s.cliff_time s.end_time now -
    s.withdrawn_amount

/-- The spec's time-ordering invariant on a stream record (§3). -/
def timesOk (s : Stream) : Prop :=
  s.start_time ≤ s.cliff_time ∧ s.cliff_time < s.end_time

/-- All current-schema records in storage satisfy the time invariant. -/
def streamsTimesOk (st : ContractState) : Prop :=
  ∀ id s, getStream st id = some (.current s) → timesOk s

theorem unlocked_nonneg (amount : Int) (s c e now : Nat)
    (ha : 0 ≤ amount) (hsc : s ≤ c) : 0 ≤ calculate_unlocked amount s c e now := by
  unfold calculate_unlocked
  split_ifs with h1 h2
  · exact le_refl 0
  · exact ha
  · push_neg at h1
    apply Int.ediv_nonneg
    · apply mul_nonneg ha
      have : (s : Int) ≤ (now : Int) := by exact_mod_cast le_trans hsc h1
      linarith
    · push_neg at h2
      have : (s : Int) ≤ (now : Int) := by exact_mod_cast le_trans hsc h1
      have h3 : (now : Int) < (e : Int) := by exact_mod_cast h2
      linarith

theorem unlocked_le_amount (amount : Int) (s c e now : Nat)
    (ha : 0 ≤ amount) (hsc : s ≤ c) (hce : c < e) :
    calculate_unlocked amount s c e now ≤ amount := by
  unfold calculate_unlocked
  split_ifs with h1 h2
  · exact ha
  · exact le_refl amount
  · push_neg at h1 h2
    have hs_now : (s : Int) ≤ (now : Int) := by exact_mod_cast le_trans hsc h1
    have h_now_e : (now : Int) < (e : Int) := by exact_mod_cast h2
    have hden : (0 : Int) < (e : Int) - (s : Int) := by linarith
    calc amount * ((now : Int) - (s : Int)) / ((e : Int) - (s : Int))
        ≤ amount * ((e : Int) - (s : Int)) / ((e : Int) - (s : Int)) := by
          apply Int.ediv_le_ediv hden
          apply mul_le_mul_of_nonneg_left _ ha
          linarith
      _ = amount := Int.mul_ediv_cancel amount (ne_of_gt hden)

theorem unlocked_mono (amount : Int) (s c e n1 n2 : Nat)
    (ha : 0 ≤ amount) (hsc : s ≤ c) (hce : c < e) (hn : n1 ≤ n2) :
    calculate_unlocked amount s c e n1 ≤ calculate_unlocked amount s c e n2 := by
  by_cases h1 : n1 < c
  · rw [calculate_unlocked, if_pos h1]
    exact unlocked_nonneg amount s c e n2 ha hsc
  · by_cases h2 : e ≤ n2
    · have hb := unlocked_le_amount amount s c e n1 ha hsc hce
      have h3 : calculate_unlocked amount s c e n2 = amount := by
        rw [calculate_unlocked, if_neg (by omega : ¬ n2 < c), if_pos h2]
      rw [h3]
      exact hb
    · rw [calculate_unlocked, if_neg h1, calculate_unlocked,
        if_neg (by omega : ¬ n2 < c), if_neg h2, if_neg (by omega : ¬ e ≤ n1)]
      push_neg at h1 h2
      have hden : (0 : Int) < (e : Int) - (s : Int) := by
        have hse : s < e := lt_of_le_of_lt hsc hce
        have hse2 : (s : Int) < (e : Int) := by exact_mod_cast hse
        linarith
      apply Int.ediv_le_ediv hden
      apply mul_le_mul_of_nonneg_left _ ha
      have : (n1 : Int) ≤ (n2 : Int) := by exact_mod_cast hn
      linarith

/-- C3: for valid inputs (`amount > 0`, `start ≤ cliff < end`) the unlock
calculation returns 0 before the cliff, the full amount at or after the end
time, and otherwise the truncating linear interpolation
`amount * (now - start) / (end - start)`; at `now = cliff` the gating lifts
and the linear formula applies, e.g. `unlocked(1000, 0, 100, 1000, 100) =
100`. -/
theorem C3_unlock_branches (amount : Int) (s c e now : Nat)
    (ha : 0 < amount) (hsc : s ≤ c) (hce : c < e) :
    (now < c → calculate_unlocked amount s c e now = 0) ∧
    (e ≤ now → calculate_unlocked amount s c e now = amount) ∧
    (c ≤ now → now < e →
      calculate_unlocked amount s c e now =
        Int.tdiv (amount * ((now - s : Nat) : Int)) ((e - s : Nat) : Int)) ∧
    calculate_unlocked 1000 0 100 1000 100 = 100 := by
  refine ⟨fun h1 => by rw [calculate_unlocked, if_pos h1], fun h2 => ?_,
    fun h1 h2 => ?_, by decide⟩
  · rw [calculate_unlocked, if_neg (by omega : ¬ now < c), if_pos h2]
  · rw [calculate_unlocked, if_neg (by omega : ¬ now < c), if_neg (by omega : ¬ e ≤ now)]
    have hsnow : s ≤ now := le_trans hsc h1
    have hse : s ≤ e := le_of_lt (lt_of_le_of_lt hsc hce)
    rw [Int.tdiv_eq_ediv (by positivity) (by omega), Nat.cast_sub hsnow, Nat.cast_sub hse]

/-- Witness for C3 at `amount = 1000`, `start = 0`, `cliff = 100`,
`end = 1000`, `now = 100`. -/
theorem C3_unlock_branches_witness :
    (100 < 100 → calculate_unlocked 1000 0 100 1000 100 = 0) ∧
    (1000 ≤ 100 → calculate_unlocked 1000 0 100 1000 100 = 1000) ∧
    (100 ≤ 100 → 100 < 1000 →
      calculate_unlocked 1000 0 100 1000 100 =
        Int.tdiv (1000 * ((100 - 0 : Nat) : Int)) ((1000 - 0 : Nat) : Int)) ∧
    calculate_unlocked 1000 0 100 1000 100 = 100 :=
  C3_unlock_branches 1000 0 100 1000 100 (by decide) (by decide) (by decide)

/-- C4: for valid inputs the unlock calculation is bounded by
`0 ≤ unlocked(now) ≤ amount` and is monotonically non-decreasing in `now`. -/
theorem C4_unlock_bounds_mono (amount : Int) (s c e n1 n2 : Nat)
    (ha : 0 < amount) (hsc : s ≤ c) (hce : c < e) (hn : n1 ≤ n2) :
    0 ≤ calculate_unlocked amount s c e n1 ∧
    calculate_unlocked amount s c e n1 ≤ amount ∧
    calculate_unlocked amount s c e n1 ≤ calculate_unlocked amount s c e n2 :=
  ⟨unlocked_nonneg amount s c e n1 (le_of_lt ha) hsc,
   unlocked_le_amount amount s c e n1 (le_of_lt ha) hsc hce,
   unlocked_mono amount s c e n1 n2 (le_of_lt ha) hsc hce hn⟩

/-- Witness for C4 at `amount = 1000`, `start = 0`, `cliff = 100`,
`end = 1000`, times 550 and 600. -/
theorem C4_unlock_bounds_mono_witness :
    0 ≤ calculate_unlocked 1000 0 100 1000 550 ∧
    calculate_unlocked 1000 0 100 1000 550 ≤ 1000 ∧
    calculate_unlocked 1000 0 100 1000 550 ≤ calculate_unlocked 1000 0 100 1000 600 :=
  C4_unlock_bounds_mono 1000 0 100 1000 550 600 (by decide) (by decide)
    (by decide) (by decide)

theorem lookup_filter_ne (l : List (Nat × StoredStream)) (id id' : Nat)
    (h : id' ≠ id) :
    (l.filter (fun p => p.1 != id)).lookup id' = l.lookup id' := by
  induction l with
  | nil => rfl
  | cons a rest ih =>
    by_cases ha : a.1 = id
    · have hf : (a.1 != id) = false := by simp [ha]
      simp only [List.filter, hf]
      rw [ih]
      have hb : (id' == a.1) = false := by simp [ha, h]
      simp [List.lookup, hb]
    · have hf : (a.1 != id) = true := by simp [ha]
      simp only [List.filter, hf]
      by_cases hc : id' = a.1
      · simp [List.lookup, hc]
      · have hb : (id' == a.1) = false := by simp [hc]
        simp [List.lookup, hb, ih]

theorem getStream_setStream_same (st : ContractState) (id : Nat)
    (s : StoredStream) : getStream (setStream st id s) id = some s := by
  simp [getStream, setStream, List.lookup]

theorem getStream_setStream_ne (st : ContractState) (id id' : Nat)
    (s : StoredStream) (h : id' ≠ id) :
    getStream (setStream st id s) id' = getStream st id' := by
  have hb : (id' == id) = false := by simp [h]
  simp only [getStream, setStream, List.lookup, hb]
  exact lookup_filter_ne st.streams id id' h

def c1Stream : Stream :=
  { sender := 1, receiver := 2, token := 3, amount := 1000, start_time := 0,
    cliff_time := 100, end_time := 1000, withdrawn_amount := 550 }

def c1State : ContractState :=
  { admin := none, feeBps := none, treasury := none, isPaused := none,
    streamId := some 1, contractVersion := none, migrationExecuted := [],
    streams := [(1, .current c1Stream)] }

/-- C1 counterexample: for the stream `(amount 1000, start 0, cliff 100,
end 1000)` with prior withdrawal history `withdrawn_amount = 550`,
cancelling at `now = 600` settles 50 to the receiver and refunds 400 to the
sender: the two cancellation payouts total 450, not the stream's amount
1000. -/
theorem C1_counterexample :
    (cancel_stream c1State 1 600).map (fun r => transferTotal r.2) = .ok 450 ∧
    (450 : Int) ≠ c1Stream.amount := by
  constructor
  · rfl
  · decide

/-- C1 amended: for every stream and every cancellation at `now < end_time`
(with the stream's creation-time invariants and `withdrawn_amount ≤
unlocked(now)`), the amount settled to the receiver plus the refund to the
sender equals `amount - withdrawn_amount`; it equals `amount` exactly only
when no prior withdrawal occurred. -/
theorem C1_cancel_conservation (st : ContractState) (id now : Nat) (s : Stream)
    (hget : getStream st id = some (.current s))
    (hp : st.isPaused.getD false = false)
    (hnow : now < s.end_time)
    (ha : 0 < s.amount) (hsc : s.start_time ≤ s.cliff_time)
    (hce : s.cliff_time < s.end_time)
    (hw : s.withdrawn_amount ≤
      calculate_unlocked s.amount s.start_time s.cliff_time s.end_time now) :
    ∃ st1 ts, cancel_stream st id now = .ok (st1, ts) ∧
      transferTotal ts = s.amount - s.withdrawn_amount := by
  have hle := unlocked_le_amount s.amount s.start_time s.cliff_time s.end_time
    now (le_of_lt ha) hsc hce
  rw [cancel_stream, hp]
  simp only [Bool.false_eq_true, if_false, hget]
  rw [if_neg (by omega : ¬ s.end_time ≤ now)]
  refine ⟨removeStream st id, _, rfl, ?_⟩
  have ht : 0 ≤ calculate_unlocked s.amount s.start_time s.cliff_time
      s.end_time now - s.withdrawn_amount := by linarith
  have hr : 0 ≤ s.amount - calculate_unlocked s.amount s.start_time
      s.cliff_time s.end_time now := by linarith
  split_ifs with hb1 hb2 hb3 <;> simp [transferTotal] <;> linarith

/-- Witness for the amended C1 at the concrete state of the counterexample:
settled plus refunded is `1000 - 550 = 450`. -/
theorem C1_cancel_conservation_witness :
    ∃ st1 ts, cancel_stream c1State 1 600 = .ok (st1, ts) ∧
      transferTotal ts = c1Stream.amount - c1Stream.withdrawn_amount :=
  C1_cancel_conservation c1State 1 600 c1Stream rfl rfl (by decide) (by decide)
    (by decide) (by decide) (by decide)

def c2State : ContractState :=
  { admin := none, feeBps := none, treasury := none, isPaused := none,
    streamId := none, contractVersion := none, migrationExecuted := [],
    streams := [] }

def c2Req : StreamRequest :=
  { receiver := 9, amount := 100, start_time := 10, cliff_time := 5,
    end_time := 20 }

/-- C2 counterexample: `create_batch_streams` never validates `cliff_time`,
so a batch request with `cliff_time = 5 < start_time = 10` (and valid
`end > start`, `amount > 0`) succeeds and persists a stream that violates
`start_time ≤ cliff_time < end_time`. -/
theorem C2_counterexample :
    ∃ st1 ts ids, create_batch_streams c2State 5 7 [c2Req] = .ok (st1, ts, ids) ∧
      getStream st1 1 = some (.current (mkBatchStream 5 7 c2Req)) ∧
      ¬ timesOk (mkBatchStream 5 7 c2Req) := by
  refine ⟨_, _, _, rfl, rfl, ?_⟩
  intro hinv
  exact absurd hinv.1 (by decide)

/-- C2 amended: the invariant `start_time ≤ cliff_time < end_time` is
established by `create_stream` for the stream it persists and is preserved
by `withdraw` and `transfer_receiver`, the operations that rewrite a stored
stream; `create_batch_streams`, by contrast, validates only `end > start`
and `amount > 0` and can persist a stream violating the invariant. -/
theorem C2_times_invariant :
    (∀ st sender receiver token amount s c e st1 ts id,
      create_stream st sender receiver token amount s c e = .ok (st1, ts, id) →
      ∃ strm, getStream st1 id = some (.current strm) ∧ timesOk strm) ∧
    (∀ st id receiver now st1 ts amt, streamsTimesOk st →
      withdraw st id receiver now = .ok (st1, ts, amt) → streamsTimesOk st1) ∧
    (∀ st id receiver st1, streamsTimesOk st →
      transfer_receiver st id receiver = .ok st1 → streamsTimesOk st1) := by
  refine ⟨?_, ?_, ?_⟩
  · intro st sender receiver token amount s c e st1 ts id h
    rw [create_stream.eq_def] at h
    simp only [] at h
    split at h
    · exact Except.noConfusion h
    split at h
    · exact Except.noConfusion h
    split at h
    · exact Except.noConfusion h
    next hcliff =>
    split at h
    · exact Except.noConfusion h
    split at h
    · exact Except.noConfusion h
    simp only [Except.ok.injEq, Prod.mk.injEq] at h
    obtain ⟨h1, h2, h3⟩ := h
    subst h1 h3
    push_neg at hcliff
    exact ⟨_, getStream_setStream_same _ _ _, hcliff.1, hcliff.2⟩
  · intro st id receiver now st1 ts amt hinv h
    rw [withdraw.eq_def] at h
    simp only [] at h
    split at h
    · exact Except.noConfusion h
    split at h <;> try exact Except.noConfusion h
    next stream heq =>
    split at h
    · exact Except.noConfusion h
    split at h
    · exact Except.noConfusion h
    simp only [Except.ok.injEq, Prod.mk.injEq] at h
    obtain ⟨h1, h2, h3⟩ := h
    intro id' s' hget'
    by_cases hid : id' = id
    · subst hid
      rw [← h1, getStream_setStream_same] at hget'
      simp only [Option.some.injEq, StoredStream.current.injEq] at hget'
      subst hget'
      exact hinv id' stream heq
    · rw [← h1, getStream_setStream_ne _ _ _ _ hid] at hget'
      exact hinv id' s' hget'
  · intro st id receiver st1 hinv h
    rw [transfer_receiver.eq_def] at h
    split at h <;> try exact Except.noConfusion h
    next s0 heq =>
    simp only [Except.ok.injEq] at h
    intro id' s' hget'
    by_cases hid : id' = id
    · subst hid
      rw [← h, getStream_setStream_same] at hget'
      simp only [Option.some.injEq, StoredStream.current.injEq] at hget'
      subst hget'
      exact hinv id' s0 heq
    · rw [← h, getStream_setStream_ne _ _ _ _ hid] at hget'
      exact hinv id' s' hget'

/-- Witness for the amended C2: a concrete `create_stream` call persists a
stream satisfying the time invariant. -/
theorem C2_times_invariant_witness :
    ∃ strm,
      getStream (setStream { c2State with streamId := some 1 } 1
        (.current { sender := 1, receiver := 2, token := 3, amount := 100,
                    start_time := 0, cliff_time := 5, end_time := 20,
                    withdrawn_amount := 0 })) 1 = some (.current strm) ∧
      timesOk strm :=
  C2_times_invariant.1 c2State 1 2 3 100 0 5 20 _ _ _ rfl

/-- C5: for an existing stream (correct receiver, not paused), `withdraw`
fails with the no-funds signal exactly when
`payable = unlocked(now) - withdrawn_amount ≤ 0` (an error commits nothing);
when `payable > 0` it transfers exactly `payable` to the receiver and
increments `withdrawn_amount` by `payable`, so `withdrawn_amount` strictly
increases up to exactly `unlocked(now)`, and a repeated call at the same
timestamp fails with the no-funds signal. -/
theorem C5_withdraw_spec (st : ContractState) (id now : Nat) (s : Stream)
    (hget : getStream st id = some (.current s))
    (hp : st.isPaused.getD false = false) :
    (payableOf s now ≤ 0 →
      withdraw st id s.receiver now = .error .nothingWithdrawable) ∧
    (0 < payableOf s now →
      withdraw st id s.receiver now =
        .ok (setStream st id
              (.current { s with
                withdrawn_amount := s.withdrawn_amount + payableOf s now }),
             [{ source := contractAddress, dest := s.receiver,
                amount := payableOf s now }],
             payableOf s now) ∧
      s.withdrawn_amount + payableOf s now =
        calculate_unlocked s.amount s.start_time s.cliff_time s.end_time now ∧
      s.withdrawn_amount < s.withdrawn_amount + payableOf s now ∧
      withdraw (setStream st id
          (.current { s with
            withdrawn_amount := s.withdrawn_amount + payableOf s now }))
        id s.receiver now = .error .nothingWithdrawable) := by
  constructor
  · intro hle
    rw [withdraw.eq_def, hp]
    simp only [Bool.false_eq_true, if_false, hget]
    rw [if_neg (by simp : ¬ s.receiver ≠ s.receiver)]
    rw [if_pos (show calculate_unlocked s.amount s.start_time s.cliff_time
      s.end_time now - s.withdrawn_amount ≤ 0 from hle)]
  · intro hpos
    refine ⟨?_, by unfold payableOf; ring, by linarith, ?_⟩
    · rw [withdraw.eq_def, hp]
      simp only [Bool.false_eq_true, if_false, hget]
      rw [if_neg (by simp : ¬ s.receiver ≠ s.receiver)]
      rw [if_neg (show ¬ calculate_unlocked s.amount s.start_time s.cliff_time
        s.end_time now - s.withdrawn_amount ≤ 0 from by unfold payableOf at hpos; linarith)]
      unfold payableOf
      rfl
    · rw [withdraw.eq_def]
      have hp1 : (setStream st id (.current { s with
          withdrawn_amount := s.withdrawn_amount + payableOf s now })).isPaused.getD
          false = false := by
        simp only [setStream]
        exact hp
      rw [hp1]
      simp only [Bool.false_eq_true, if_false, getStream_setStream_same]
      rw [if_neg (by simp : ¬ s.receiver ≠ s.receiver)]
      rw [if_pos (show calculate_unlocked s.amount s.start_time s.cliff_time
        s.end_time now - (s.withdrawn_amount + payableOf s now) ≤ 0 from by
          unfold payableOf; linarith)]

def c5Stream : Stream :=
  { sender := 1, receiver := 2, token := 3, amount := 1000, start_time := 0,
    cliff_time := 100, end_time := 1000, withdrawn_amount := 0 }

def c5State : ContractState :=
  { admin := none, feeBps := none, treasury := none, isPaused := none,
    streamId := some 1, contractVersion := none, migrationExecuted := [],
    streams := [(1, .current c5Stream)] }

/-- Witness for C5: at `now = 550` the payable amount on a fresh
`(1000, 0, 100, 1000)` stream is 550. -/
theorem C5_withdraw_spec_witness :
    (payableOf c5Stream 550 ≤ 0 →
      withdraw c5State 1 c5Stream.receiver 550 = .error .nothingWithdrawable) ∧
    (0 < payableOf c5Stream 550 →
      withdraw c5State 1 c5Stream.receiver 550 =
        .ok (setStream c5State 1
              (.current { c5Stream with
                withdrawn_amount := c5Stream.withdrawn_amount + payableOf c5Stream 550 }),
             [{ source := contractAddress, dest := c5Stream.receiver,
                amount := payableOf c5Stream 550 }],
             payableOf c5Stream 550) ∧
      c5Stream.withdrawn_amount + payableOf c5Stream 550 =
        calculate_unlocked c5Stream.amount c5Stream.start_time c5Stream.cliff_time
          c5Stream.end_time 550 ∧
      c5Stream.withdrawn_amount <
        c5Stream.withdrawn_amount + payableOf c5Stream 550 ∧
      withdraw (setStream c5State 1
          (.current { c5Stream with
            withdrawn_amount := c5Stream.withdrawn_amount + payableOf c5Stream 550 }))
        1 c5Stream.receiver 550 = .error .nothingWithdrawable) :=
  C5_withdraw_spec c5State 1 550 c5Stream rfl rfl

/-- C6: under its preconditions (not paused, `end > start`,
`start ≤ cliff < end`, `amount > 0`, with a treasury configured),
`create_stream` computes `fee = floor(amount * fee_bps / 10000)`, transfers
`amount - fee` to custody and `fee` to the treasury (no treasury transfer
when the fee is zero), allocates id `previous counter + 1`, and persists a
stream holding the net amount with `withdrawn_amount = 0`; on any
precondition violation it fails, committing no state change and no
transfer. -/
theorem C6_create_stream_spec (st : ContractState)
    (sender receiver token : Address) (amount : Int) (s c e : Nat)
    (tr : Address) (htr : st.treasury = some tr) :
    ((st.isPaused.getD false = false ∧ s < e ∧ s ≤ c ∧ c < e ∧ 0 < amount) →
      create_stream st sender receiver token amount s c e =
        .ok (setStream { st with streamId := some (st.streamId.getD 0 + 1) }
               (st.streamId.getD 0 + 1)
               (.current
                 { sender := sender, receiver := receiver, token := token,
                   amount := amount - amount * (st.feeBps.getD 0 : Int) / 10000,
                   start_time := s, cliff_time := c, end_time := e,
                   withdrawn_amount := 0 }),
             { source := sender, dest := contractAddress,
               amount := amount - amount * (st.feeBps.getD 0 : Int) / 10000 } ::
               (if 0 < amount * (st.feeBps.getD 0 : Int) / 10000 then
                  [{ source := sender, dest := tr,
                     amount := amount * (st.feeBps.getD 0 : Int) / 10000 }]
                else []),
             st.streamId.getD 0 + 1)) ∧
    ((st.isPaused.getD false = true ∨ e ≤ s ∨ c < s ∨ e ≤ c ∨ amount ≤ 0) →
      ∃ err, create_stream st sender receiver token amount s c e =
        .error err) := by
  constructor
  · rintro ⟨hp, hse, hsc, hce, ha⟩
    rw [create_stream.eq_def]
    simp only [hp, Bool.false_eq_true, if_false]
    rw [if_neg (by omega : ¬ e ≤ s)]
    rw [if_neg (by omega : ¬ (c < s ∨ e ≤ c))]
    rw [if_neg (by linarith : ¬ amount ≤ 0)]
    rw [htr]
    by_cases hfee : 0 < amount * (st.feeBps.getD 0 : Int) / 10000
    · rw [if_pos hfee, if_pos hfee]
    · rw [if_neg hfee, if_neg hfee]
  · intro hviol
    cases hres : create_stream st sender receiver token amount s c e with
    | error err => exact ⟨err, rfl⟩
    | ok val =>
      exfalso
      rw [create_stream.eq_def] at hres
      simp only [] at hres
      split at hres
      · exact Except.noConfusion hres
      next hp2 =>
      split at hres
      · exact Except.noConfusion hres
      next hse2 =>
      split at hres
      · exact Except.noConfusion hres
      next hc2 =>
      split at hres
      · exact Except.noConfusion hres
      next ha2 =>
      rcases hviol with hv | hv | hv | hv | hv
      · exact hp2 hv
      · exact hse2 hv
      · exact hc2 (Or.inl hv)
      · exact hc2 (Or.inr hv)
      · exact ha2 hv

def c6State : ContractState :=
  { admin := none, feeBps := some 250, treasury := some 4, isPaused := none,
    streamId := none, contractVersion := none, migrationExecuted := [],
    streams := [] }

/-- Witness for C6: with `fee_bps = 250` and `amount = 1000`, the fee is 25,
custody receives 975, the treasury receives 25, and stream id 1 is
persisted with the net amount 975. -/
theorem C6_create_stream_spec_witness :
    create_stream c6State 1 2 3 1000 0 100 1000 =
      .ok (setStream { c6State with streamId := some 1 } 1
             (.current
               { sender := 1, receiver := 2, token := 3, amount := 975,
                 start_time := 0, cliff_time := 100, end_time := 1000,
                 withdrawn_amount := 0 }),
           [{ source := 1, dest := contractAddress, amount := 975 },
            { source := 1, dest := 4, amount := 25 }], 1) := by
  have h := (C6_create_stream_spec c6State 1 2 3 1000 0 100 1000 4 rfl).1
    ⟨rfl, by decide, by decide, by decide, by decide⟩
  exact h

/-- C10: when the `FeeBps` key has never been set, `create_stream` treats
the fee rate as 0: it transfers the full amount to custody, attempts no
treasury transfer, and succeeds even when the `Treasury` key is also unset
(the theorem holds for arbitrary `st.treasury`, including `none`); more
generally, whenever the computed fee is 0 no treasury transfer is
attempted. -/
theorem C10_zero_fee (st : ContractState) (sender receiver token : Address)
    (amount : Int) (s c e : Nat)
    (hp : st.isPaused.getD false = false) (hse : s < e) (hsc : s ≤ c)
    (hce : c < e) (ha : 0 < amount) :
    (st.feeBps = none →
      create_stream st sender receiver token amount s c e =
        .ok (setStream { st with streamId := some (st.streamId.getD 0 + 1) }
               (st.streamId.getD 0 + 1)
               (.current
                 { sender := sender, receiver := receiver, token := token,
                   amount := amount, start_time := s, cliff_time := c,
                   end_time := e, withdrawn_amount := 0 }),
             [{ source := sender, dest := contractAddress, amount := amount }],
             st.streamId.getD 0 + 1)) ∧
    (amount * (st.feeBps.getD 0 : Int) / 10000 = 0 →
      create_stream st sender receiver token amount s c e =
        .ok (setStream { st with streamId := some (st.streamId.getD 0 + 1) }
               (st.streamId.getD 0 + 1)
               (.current
                 { sender := sender, receiver := receiver, token := token,
                   amount := amount, start_time := s, cliff_time := c,
                   end_time := e, withdrawn_amount := 0 }),
             [{ source := sender, dest := contractAddress, amount := amount }],
             st.streamId.getD 0 + 1)) := by
  have main : amount * (st.feeBps.getD 0 : Int) / 10000 = 0 →
      create_stream st sender receiver token amount s c e =
        .ok (setStream { st with streamId := some (st.streamId.getD 0 + 1) }
               (st.streamId.getD 0 + 1)
               (.current
                 { sender := sender, receiver := receiver, token := token,
                   amount := amount, start_time := s, cliff_time := c,
                   end_time := e, withdrawn_amount := 0 }),
             [{ source := sender, dest := contractAddress, amount := amount }],
             st.streamId.getD 0 + 1) := by
    intro hfee0
    rw [create_stream.eq_def]
    simp only [hp, Bool.false_eq_true, if_false]
    rw [if_neg (by omega : ¬ e ≤ s)]
    rw [if_neg (by omega : ¬ (c < s ∨ e ≤ c))]
    rw [if_neg (by linarith : ¬ amount ≤ 0)]
    rw [hfee0]
    norm_num
  constructor
  · intro hnone
    apply main
    rw [hnone]
    norm_num
  · exact main

def c10State : ContractState :=
  { admin := none, feeBps := none, treasury := none, isPaused := none,
    streamId := none, contractVersion := none, migrationExecuted := [],
    streams := [] }

/-- Witness for C10: with `FeeBps` and `Treasury` both unset,
`create_stream` succeeds, moves the full 1000 to custody and emits no
treasury transfer. -/
theorem C10_zero_fee_witness :
    create_stream c10State 1 2 3 1000 0 100 1000 =
      .ok (setStream { c10State with streamId := some 1 } 1
             (.current
               { sender := 1, receiver := 2, token := 3, amount := 1000,
                 start_time := 0, cliff_time := 100, end_time := 1000,
                 withdrawn_amount := 0 }),
           [{ source := 1, dest := contractAddress, amount := 1000 }], 1) :=
  (C10_zero_fee c10State 1 2 3 1000 0 100 1000 rfl (by decide) (by decide)
    (by decide) (by decide)).1 rfl

theorem validateBatch_ok (requests : List StreamRequest)
    (h : ∀ r ∈ requests, r.start_time < r.end_time ∧ 0 < r.amount) :
    validateBatch requests = .ok ((requests.map StreamRequest.amount).sum) := by
  induction requests with
  | nil => rfl
  | cons r rest ih =>
    have hr := h r (List.mem_cons_self r rest)
    rw [validateBatch]
    rw [if_neg (by omega : ¬ r.end_time ≤ r.start_time)]
    rw [if_neg (by linarith [hr.2] : ¬ r.amount ≤ 0)]
    rw [ih (fun x hx => h x (List.mem_cons_of_mem r hx))]
    simp

theorem validateBatch_err (requests : List StreamRequest)
    (h : ∃ r ∈ requests, r.end_time ≤ r.start_time ∨ r.amount ≤ 0) :
    ∃ e, validateBatch requests = .error e := by
  induction requests with
  | nil => simp at h
  | cons r rest ih =>
    by_cases h1 : r.end_time ≤ r.start_time
    · refine ⟨.invalidRange, ?_⟩
      rw [validateBatch, if_pos h1]
    · by_cases h2 : r.amount ≤ 0
      · refine ⟨.invalidAmount, ?_⟩
        rw [validateBatch, if_neg h1, if_pos h2]
      · obtain ⟨x, hx, hPx⟩ := h
        rcases List.mem_cons.mp hx with hxr | hxrest
        · subst hxr
          rcases hPx with hb | hb
          · exact absurd hb h1
          · exact absurd hb h2
        · obtain ⟨e1, he1⟩ := ih ⟨x, hxrest, hPx⟩
          refine ⟨e1, ?_⟩
          rw [validateBatch, if_neg h1, if_neg h2, he1]

theorem insertBatch_final (sender token : Address) (reqs : List StreamRequest) :
    ∀ st sid, (insertBatch sender token st sid reqs).2.2 = sid + reqs.length := by
  induction reqs with
  | nil => intro st sid; rfl
  | cons r rest ih =>
    intro st sid
    rw [insertBatch]
    simp only []
    rw [ih]
    simp only [List.length_cons]
    omega

theorem insertBatch_ids (sender token : Address) (reqs : List StreamRequest) :
    ∀ st sid, (insertBatch sender token st sid reqs).2.1 =
      List.range' (sid + 1) reqs.length := by
  induction reqs with
  | nil => intro st sid; rfl
  | cons r rest ih =>
    intro st sid
    rw [insertBatch]
    simp only [List.length_cons, List.range'_succ]
    rw [ih]

theorem insertBatch_get_low (sender token : Address) (reqs : List StreamRequest) :
    ∀ st sid j, j ≤ sid →
      getStream (insertBatch sender token st sid reqs).1 j = getStream st j := by
  induction reqs with
  | nil => intro st sid j hj; rfl
  | cons r rest ih =>
    intro st sid j hj
    rw [insertBatch]
    simp only []
    rw [ih _ (sid + 1) j (by omega)]
    exact getStream_setStream_ne _ _ _ _ (by omega)

theorem insertBatch_get (sender token : Address) (reqs : List StreamRequest) :
    ∀ st sid k r, reqs[k]? = some r →
      getStream (insertBatch sender token st sid reqs).1 (sid + 1 + k) =
        some (.current (mkBatchStream sender token r)) := by
  induction reqs with
  | nil => intro st sid k r h; simp at h
  | cons q rest ih =>
    intro st sid k r h
    cases k with
    | zero =>
      simp only [List.getElem?_cons_zero, Option.some.injEq] at h
      subst h
      rw [insertBatch]
      simp only []
      rw [insertBatch_get_low sender token rest _ (sid + 1) (sid + 1 + 0)
        (by omega)]
      exact getStream_setStream_same st (sid + 1) _ ▸ (by rw [Nat.add_zero])
    | succ k1 =>
      simp only [List.getElem?_cons_succ] at h
      rw [insertBatch]
      simp only []
      have hidx : sid + 1 + (k1 + 1) = (sid + 1) + 1 + k1 := by omega
      rw [hidx]
      exact ih _ (sid + 1) k1 r h

/-- C7: `create_batch_streams` validates every request (`end > start`,
`amount > 0`) before any transfer — one invalid request aborts the whole
batch with no effect; on success it makes a single aggregate custody
transfer of the sum of all request amounts with no fee deducted, persists
one stream per request holding the full request amount, and returns the
contiguous strictly increasing id sequence `counter+1, ..., counter+n` in
request order. -/
theorem C7_batch_spec (st : ContractState) (sender token : Address)
    (requests : List StreamRequest) :
    ((∃ r ∈ requests, r.end_time ≤ r.start_time ∨ r.amount ≤ 0) →
      ∃ err, create_batch_streams st sender token requests = .error err) ∧
    ((∀ r ∈ requests, r.start_time < r.end_time ∧ 0 < r.amount) →
      ∃ st1, create_batch_streams st sender token requests =
          .ok (st1,
            [{ source := sender, dest := contractAddress,
               amount := (requests.map StreamRequest.amount).sum }],
            List.range' (st.streamId.getD 0 + 1) requests.length) ∧
        (∀ k r, requests[k]? = some r →
          getStream st1 (st.streamId.getD 0 + 1 + k) =
            some (.current (mkBatchStream sender token r)))) := by
  constructor
  · intro h
    obtain ⟨e, he⟩ := validateBatch_err requests h
    exact ⟨e, by rw [create_batch_streams, he]⟩
  · intro h
    refine ⟨{ (insertBatch sender token st (st.streamId.getD 0) requests).1 with
        streamId := some
          (insertBatch sender token st (st.streamId.getD 0) requests).2.2 },
      ?_, ?_⟩
    · rw [create_batch_streams, validateBatch_ok _ h]
      simp only []
      rw [insertBatch_ids]
    · intro k r hk
      have hg := insertBatch_get sender token requests st (st.streamId.getD 0)
        k r hk
      exact hg

def c7Req1 : StreamRequest :=
  { receiver := 8, amount := 300, start_time := 0, cliff_time := 10,
    end_time := 100 }

def c7Req2 : StreamRequest :=
  { receiver := 9, amount := 700, start_time := 5, cliff_time := 20,
    end_time := 200 }

def c7State : ContractState :=
  { admin := none, feeBps := none, treasury := none, isPaused := none,
    streamId := some 3, contractVersion := none, migrationExecuted := [],
    streams := [] }

/-- Witness for C7: a two-request batch on a counter at 3 transfers 1000 in
one aggregate transfer and issues ids 4 and 5. -/
theorem C7_batch_spec_witness :
    ∃ st1, create_batch_streams c7State 1 7 [c7Req1, c7Req2] =
        .ok (st1,
          [{ source := 1, dest := contractAddress,
             amount := ([c7Req1, c7Req2].map StreamRequest.amount).sum }],
          List.range' (c7State.streamId.getD 0 + 1) [c7Req1, c7Req2].length) ∧
      (∀ k r, [c7Req1, c7Req2][k]? = some r →
        getStream st1 (c7State.streamId.getD 0 + 1 + k) =
          some (.current (mkBatchStream 1 7 r))) :=
  (C7_batch_spec c7State 1 7 [c7Req1, c7Req2]).2 (by decide)

theorem migrateV1V2Step_id (st : ContractState) (id : Nat) :
    migrateV1V2Step st id = st := by
  unfold migrateV1V2Step
  split <;> rfl

theorem foldl_migrateStep_id (l : List Nat) :
    ∀ st, l.foldl (fun s i => migrateV1V2Step s (i + 1)) st = st := by
  induction l with
  | nil => intro st; rfl
  | cons a rest ih =>
    intro st
    rw [List.foldl_cons, migrateV1V2Step_id]
    exact ih st

theorem migrate_v1_to_v2_id (st : ContractState) : migrate_v1_to_v2 st = st := by
  unfold migrate_v1_to_v2
  exact foldl_migrateStep_id _ st

theorem runMigrations_ok_id (l : List Nat) :
    ∀ st st1, runMigrations st l = .ok st1 → st1 = st := by
  induction l with
  | nil =>
    intro st st1 h
    rw [runMigrations] at h
    simp only [Except.ok.injEq] at h
    exact h.symm
  | cons v rest ih =>
    intro st st1 h
    rw [runMigrations] at h
    split at h
    · have h2 := ih _ _ h
      rw [h2, migrate_v1_to_v2_id]
    · exact Except.noConfusion h

theorem runMigrations_all2 (l : List Nat) (hv : ∀ v ∈ l, v = 2) :
    ∀ st, runMigrations st l = .ok st := by
  induction l with
  | nil => intro st; rfl
  | cons v rest ih =>
    intro st
    rw [runMigrations, if_pos (hv v (List.mem_cons_self v rest)),
      migrate_v1_to_v2_id]
    exact ih (fun x hx => hv x (List.mem_cons_of_mem v hx)) st

theorem runMigrations_err (l : List Nat) (hv : ∃ v ∈ l, v ≠ 2) :
    ∀ st, ∃ e, runMigrations st l = .error e := by
  induction l with
  | nil => simp at hv
  | cons v rest ih =>
    intro st
    by_cases h2 : v = 2
    · obtain ⟨x, hx, hPx⟩ := hv
      rcases List.mem_cons.mp hx with hxv | hxrest
      · exact absurd (hxv ▸ h2) hPx
      · obtain ⟨e, he⟩ := ih ⟨x, hxrest, hPx⟩ (migrate_v1_to_v2 st)
        exact ⟨e, by rw [runMigrations, if_pos h2, he]⟩
    · exact ⟨.undefinedMigrationStep, by rw [runMigrations, if_neg h2]⟩

theorem mem_versionRange (current target v : Nat) (h1 : current < v)
    (h2 : v ≤ target) : v ∈ versionRange current target := by
  unfold versionRange
  refine List.mem_map.mpr ⟨v - current - 1, List.mem_range.mpr (by omega),
    by omega⟩

/-- C8: `migrate(admin, target)` fails when `target ≤ current_version`,
fails with the already-migrated signal when `MigrationExecuted(target)` is
set (an error commits nothing, so a second invocation with the same target
is rejected with no data change), aborts whole when some version in
`current+1 .. target` has no defined migration step (only version 2 has
one), and on success sets `ContractVersion = target` and marks
`MigrationExecuted(target)`. -/
theorem C8_migrate_spec (st : ContractState) (a : Address) (target : Nat)
    (hadm : st.admin = some a) :
    (is_migration_executed st target = true →
      migrate st a target = .error .alreadyMigrated) ∧
    (target ≤ get_version st → ∃ err, migrate st a target = .error err) ∧
    ((∃ v, get_version st < v ∧ v ≤ target ∧ v ≠ 2) →
      ∃ err, migrate st a target = .error err) ∧
    (is_migration_executed st target = false → get_version st < target →
      (∀ v, get_version st < v → v ≤ target → v = 2) →
      migrate st a target =
        .ok { st with
              migrationExecuted := target :: st.migrationExecuted,
              contractVersion := some target } ∧
      is_migration_executed
        { st with
          migrationExecuted := target :: st.migrationExecuted,
          contractVersion := some target } target = true) := by
  have hne : ¬ a ≠ a := by simp
  refine ⟨?_, ?_, ?_, ?_⟩
  · intro hexec
    rw [migrate.eq_def]
    simp only [hadm, hexec, if_true]
    rw [if_neg hne]
  · intro hle
    by_cases hexec : is_migration_executed st target
    · refine ⟨.alreadyMigrated, ?_⟩
      rw [migrate.eq_def]
      simp only [hadm, hexec, if_true]
      rw [if_neg hne]
    · refine ⟨.nonMonotonicMigration, ?_⟩
      rw [migrate.eq_def]
      simp only [hadm, eq_false hexec, Bool.false_eq_true, if_false]
      rw [if_neg hne, if_pos hle]
  · intro hv
    obtain ⟨v, hv1, hv2, hv3⟩ := hv
    by_cases hexec : is_migration_executed st target
    · refine ⟨.alreadyMigrated, ?_⟩
      rw [migrate.eq_def]
      simp only [hadm, hexec, if_true]
      rw [if_neg hne]
    · obtain ⟨e, he⟩ := runMigrations_err (versionRange (get_version st) target)
        ⟨v, mem_versionRange _ _ _ hv1 hv2, hv3⟩ st
      refine ⟨e, ?_⟩
      rw [migrate.eq_def]
      simp only [hadm, eq_false hexec, Bool.false_eq_true, if_false]
      rw [if_neg hne, if_neg (by omega : ¬ target ≤ get_version st), he]
  · intro hexec hlt hall
    have hrun := runMigrations_all2 (versionRange (get_version st) target)
      (fun v hv => by
        obtain ⟨i, hi, hiv⟩ := List.mem_map.mp hv
        have hir := List.mem_range.mp hi
        exact hall v (by omega) (by omega)) st
    constructor
    · rw [migrate.eq_def]
      simp only [hadm, hexec, Bool.false_eq_true, if_false]
      rw [if_neg hne, if_neg (by omega : ¬ target ≤ get_version st), hrun]
      simp [hadm]
    · simp [is_migration_executed]

def c8State : ContractState :=
  { admin := some 1, feeBps := none, treasury := none, isPaused := none,
    streamId := some 1, contractVersion := none, migrationExecuted := [],
    streams := [(1, .legacy
      { sender := 1, receiver := 2, token := 3, amount := 50,
        start_time := 0, end_time := 10, withdrawn_amount := 0 })] }

/-- Witness for C8 at a concrete version-1 state with one legacy stream and
`target = 2`. -/
theorem C8_migrate_spec_witness :
    (is_migration_executed c8State 2 = true →
      migrate c8State 1 2 = .error .alreadyMigrated) ∧
    (2 ≤ get_version c8State → ∃ err, migrate c8State 1 2 = .error err) ∧
    ((∃ v, get_version c8State < v ∧ v ≤ 2 ∧ v ≠ 2) →
      ∃ err, migrate c8State 1 2 = .error err) ∧
    (is_migration_executed c8State 2 = false → get_version c8State < 2 →
      (∀ v, get_version c8State < v → v ≤ 2 → v = 2) →
      migrate c8State 1 2 =
        .ok { c8State with
              migrationExecuted := 2 :: c8State.migrationExecuted,
              contractVersion := some 2 } ∧
      is_migration_executed
        { c8State with
          migrationExecuted := 2 :: c8State.migrationExecuted,
          contractVersion := some 2 } 2 = true) :=
  C8_migrate_spec c8State 1 2 rfl

/-- C9: a successful `migrate(admin, 2)` leaves every stored stream record
untouched (the whole `streams` store, hence every legacy- or current-shaped
record, is byte-for-byte unchanged) and every other key except
`ContractVersion` and `MigrationExecuted(2)` unchanged: the bulk v1-to-v2
step performs no conversion. -/
theorem C9_bulk_migration_frame (st st1 : ContractState) (a : Address)
    (h : migrate st a 2 = .ok st1) :
    st1.streams = st.streams ∧ st1.admin = st.admin ∧
    st1.feeBps = st.feeBps ∧ st1.treasury = st.treasury ∧
    st1.isPaused = st.isPaused ∧ st1.streamId = st.streamId ∧
    st1.contractVersion = some 2 ∧
    st1.migrationExecuted = 2 :: st.migrationExecuted := by
  rw [migrate.eq_def] at h
  split at h
  · exact Except.noConfusion h
  next stored hadm =>
  split at h
  · exact Except.noConfusion h
  split at h
  · exact Except.noConfusion h
  simp only [] at h
  split at h
  · exact Except.noConfusion h
  split at h
  · exact Except.noConfusion h
  next st2 hrun =>
  simp only [Except.ok.injEq] at h
  have hid := runMigrations_ok_id _ _ _ hrun
  subst hid
  rw [← h]
  exact ⟨rfl, rfl, rfl, rfl, rfl, rfl, rfl, rfl⟩

def c9After : ContractState :=
  { c8State with migrationExecuted := [2], contractVersion := some 2 }

/-- Witness for C9: running `migrate(admin, 2)` on the concrete version-1
state with one legacy stream leaves the stream store unchanged. -/
theorem C9_bulk_migration_frame_witness :
    c9After.streams = c8State.streams ∧ c9After.admin = c8State.admin ∧
    c9After.feeBps = c8State.feeBps ∧ c9After.treasury = c8State.treasury ∧
    c9After.isPaused = c8State.isPaused ∧
    c9After.streamId = c8State.streamId ∧
    c9After.contractVersion = some 2 ∧
    c9After.migrationExecuted = 2 :: c8State.migrationExecuted :=
  C9_bulk_migration_frame c8State c9After 1 rfl

end StellarStream
